import Mathlib

/-!
Verification of the binary reference codec (`binref.go`) of go-gabbygrove.

The codec serialises a tagged union `BinaryRef` of feed / message / content
references into a fixed 33-byte wire form (1 discriminant byte + 32 payload
bytes) and back.  The collaborating reference types (`FeedRef`, `MessageRef`
from the external ssb-refs library, and `ContentRef` from this repository)
hold fixed 32-byte identifiers; they are modelled here from the spec's
description of their interfaces, while `BinaryRef` and all its operations are
translated directly from `binref.go`.
-/

/-- Byte sequences of exactly 32 bytes, modelling the fixed `[32]byte`
identifier arrays of the collaborator reference types. -/
abbrev Bytes32 := { l : List Nat // l.length = 32 }

/-- Reference algorithm tags.  The codec only accepts the gabby variants;
`contentSSB1` models the other content-hash variant that the `ContentRef`
type can carry (the spec: only the "gabby" variant is accepted by this
codec, implying others exist). -/
inductive RefAlgo
  | feedGabby
  | messageGabby
  | contentGabby
  | contentSSB1
  deriving DecidableEq, Repr

/-- RefType enumeration from binref.go lines 13-20. -/
inductive RefType
  | undefined
  | feed
  | message
  | content
  deriving DecidableEq, Repr

/-- Error values of the codec and its collaborators.  Go returns `error`
values distinguished by message; here each distinct failure is a
constructor. -/
inductive Err
  | invalidLength (n : Nat)
  | unknownDiscriminant (b : Nat)
  | multipleReferencesSet
  | unsupportedContentAlgorithm
  | invalidContentAlgorithm
  | invalidPublicKeyLength
  | invalidRefBytes
  | contentRefInvalidLength (n : Nat)
  | contentRefUnknownTag (b : Nat)
  | copyHashLenMismatch
  | nilDeref
  deriving DecidableEq, Repr

/-- Modelled from the spec: `refs.FeedRef`, an external collaborator type
holding an algorithm tag and a fixed 32-byte public-key identifier. -/
structure FeedRef where
  algo : RefAlgo
  id : Bytes32
  deriving DecidableEq

/-- Modelled from the spec: `refs.MessageRef`, an external collaborator type
holding an algorithm tag and a fixed 32-byte hash. -/
structure MessageRef where
  algo : RefAlgo
  hash : Bytes32
  deriving DecidableEq

/-- Modelled from the spec: `ContentRef` (repository code outside src/),
a content reference carrying its own algorithm tag and a 32-byte hash. -/
structure ContentRef where
  algo : RefAlgo
  hash : Bytes32
  deriving DecidableEq

/-- Modelled from the spec: the collaborator parser
`refs.NewFeedRefFromBytes`, parse-feed-reference-from-32-bytes with an
algorithm tag; it fails unless given exactly 32 bytes. -/
def NewFeedRefFromBytes (b : List Nat) (algo : RefAlgo) : Except Err FeedRef :=
  if h : b.length = 32 then .ok ⟨algo, ⟨b, h⟩⟩ else .error .invalidRefBytes

/-- Modelled from the spec: the collaborator parser
`refs.NewMessageRefFromBytes`, parse-message-reference-from-32-bytes with an
algorithm tag; it fails unless given exactly 32 bytes. -/
def NewMessageRefFromBytes (b : List Nat) (algo : RefAlgo) : Except Err MessageRef :=
  if h : b.length = 32 then .ok ⟨algo, ⟨b, h⟩⟩ else .error .invalidRefBytes

/-- PubKey accessor of a feed reference: its raw 32 key bytes. -/
def FeedRef.pubKey (fr : FeedRef) : List Nat :=
  fr.id.val

/-- Modelled from the spec: `MessageRef.CopyHashTo` into a fresh 32-byte
buffer (binref.go lines 75-76 allocates `make([]byte, 32)`); the copy fails
when the hash length differs from the buffer length, which cannot happen
for the fixed 32-byte hash. -/
def MessageRef.copyHashTo32 (mr : MessageRef) : Except Err (List Nat) :=
  if mr.hash.val.length = 32 then .ok mr.hash.val else .error .copyHashLenMismatch

/-- Modelled from the spec: `ContentRef.MarshalBinary` produces
`[algorithm-tag-byte] ++ [32 bytes]`; tag 0x02 is the gabby content variant,
0x01 the other variant. -/
def ContentRef.marshalBinary (cr : ContentRef) : Except Err (List Nat) :=
  match cr.algo with
  | .contentGabby => .ok (0x02 :: cr.hash.val)
  | .contentSSB1 => .ok (0x01 :: cr.hash.val)
  | _ => .error .unsupportedContentAlgorithm

/-- Modelled from the spec: `ContentRef.UnmarshalBinary` accepts the same
33-byte shape `[algorithm-tag-byte] ++ [32 bytes]`, failing on a wrong
length or an unknown algorithm tag. -/
def ContentRef.unmarshalBinary (data : List Nat) : Except Err ContentRef :=
  match data with
  | [] => .error (.contentRefInvalidLength 0)
  | d0 :: rest =>
    if h : rest.length = 32 then
      if d0 = 0x01 then .ok ⟨RefAlgo.contentSSB1, ⟨rest, h⟩⟩
      else if d0 = 0x02 then .ok ⟨RefAlgo.contentGabby, ⟨rest, h⟩⟩
      else .error (.contentRefUnknownTag d0)
    else .error (.contentRefInvalidLength (rest.length + 1))

/-- Algo accessor of a content reference (`ContentRef.Algo()`). -/
def ContentRef.algoOf (cr : ContentRef) : RefAlgo :=
  cr.algo

/-- BinaryRef from binref.go lines 23-27: at most one of the three
pointer members is meant to be set; `none` models a nil pointer. -/
structure BinaryRef where
  fr : Option FeedRef
  mr : Option MessageRef
  cr : Option ContentRef
  deriving DecidableEq

/-- The zero value of `BinaryRef`: all three members nil. -/
def BinaryRef.zero : BinaryRef :=
  ⟨none, none, none⟩

/-- Wire size constant, binref.go line 31. -/
def binrefSize : Nat := 33

/-- Number of set members, the counter `i` of `valid` (binref.go 33-52). -/
def BinaryRef.refCount (ref : BinaryRef) : Nat :=
  (if ref.fr.isSome then 1 else 0) + (if ref.mr.isSome then 1 else 0) +
    (if ref.cr.isSome then 1 else 0)

/-- The type variable `t` as computed by `valid`: each set member overwrites
`t` in the order fr, mr, cr, so the last set member wins. -/
def BinaryRef.lastSetKind (ref : BinaryRef) : RefType :=
  if ref.cr.isSome then .content
  else if ref.mr.isSome then .message
  else if ref.fr.isSome then .feed
  else .undefined

/-- `valid` from binref.go lines 33-52: errors when more than one member is
set, otherwise reports the active kind (Undefined when none is set). -/
def BinaryRef.valid (ref : BinaryRef) : Except Err RefType :=
  if ref.refCount > 1 then .error .multipleReferencesSet
  else .ok ref.lastSetKind

/-- The content-algorithm gate of `UnmarshalBinary` (binref.go lines
112-114): a decoded content reference is rejected unless its algorithm is
the gabby content algorithm. -/
def contentAlgoGate (cr : ContentRef) : Option Err :=
  if cr.algoOf ≠ RefAlgo.contentGabby then some .invalidContentAlgorithm
  else none

/-- `MarshalBinary` from binref.go lines 66-88.  The `none` arms under a
kind whose member is nil model the nil-pointer dereference Go would hit;
they are unreachable because `valid` guarantees the member is set. -/
def BinaryRef.marshalBinary (ref : BinaryRef) : Except Err (List Nat) :=
  match ref.valid with
  | .error e => .error e
  | .ok .feed =>
    match ref.fr with
    | some fr => .ok (0x01 :: fr.pubKey)
    | none => .error .nilDeref
  | .ok .message =>
    match ref.mr with
    | some mr =>
      match mr.copyHashTo32 with
      | .ok hd => .ok (0x02 :: hd)
      | .error e => .error e
    | none => .error .nilDeref
  | .ok .content =>
    match ref.cr with
    | some cr =>
      if cr.algo ≠ RefAlgo.contentGabby then .error .unsupportedContentAlgorithm
      else
        match cr.marshalBinary with
        | .ok crBytes => .ok (0x03 :: crBytes.tail)
        | .error e => .error e
    | none => .error .nilDeref
  | .ok .undefined => .ok []

/-- `UnmarshalBinary` from binref.go lines 90-120.  Go mutates the receiver
in place and returns only an error; this is modelled as returning the new
receiver state together with an optional error.  A successful decode sets
only the member for the decoded tag, leaving the other two as they were. -/
def BinaryRef.unmarshalBinary (ref : BinaryRef) (data : List Nat) :
    BinaryRef × Option Err :=
  if data.length ≠ binrefSize then (ref, some (.invalidLength data.length))
  else
    match data with
    | [] => (ref, some (.invalidLength 0))
    | d0 :: rest =>
      if d0 = 0x01 then
        match NewFeedRefFromBytes rest RefAlgo.feedGabby with
        | .ok fr => ({ ref with fr := some fr }, none)
        | .error e => (ref, some e)
      else if d0 = 0x02 then
        match NewMessageRefFromBytes rest RefAlgo.messageGabby with
        | .ok mr => ({ ref with mr := some mr }, none)
        | .error e => (ref, some e)
      else if d0 = 0x03 then
        match ContentRef.unmarshalBinary (0x02 :: rest) with
        | .ok newCR =>
          match contentAlgoGate newCR with
          | some e => (ref, some e)
          | none => ({ ref with cr := some newCR }, none)
        | .error e => (ref, some e)
      else (ref, some (.unknownDiscriminant d0))

/-- `Size` from binref.go lines 122-124: the constant 33 for every
instance. -/
def BinaryRef.size (_ : BinaryRef) : Nat :=
  binrefSize

/-- Incoming reference values for `fromRef`: the closed set of concrete
reference kinds the codec accepts (Go's default arm catches other dynamic
types, which this closed sum cannot represent). -/
inductive Ref
  | feed (fr : FeedRef)
  | message (mr : MessageRef)
  | content (cr : ContentRef)

/-- `fromRef` from binref.go lines 176-189: wrap a concrete reference as
the corresponding single-member `BinaryRef`. -/
def fromRef (r : Ref) : BinaryRef :=
  match r with
  | .feed fr => ⟨some fr, none, none⟩
  | .message mr => ⟨none, some mr, none⟩
  | .content cr => ⟨none, none, some cr⟩

/-- Fixed ed25519 public-key size. -/
def ed25519PublicKeySize : Nat := 32

/-- `refFromPubKey` from binref.go lines 191-199: reject a key of the wrong
length, otherwise wrap it as a gabby feed reference. -/
def refFromPubKey (pk : List Nat) : Except Err BinaryRef :=
  if pk.length ≠ ed25519PublicKeySize then .error .invalidPublicKeyLength
  else
    match NewFeedRefFromBytes pk RefAlgo.feedGabby with
    | .ok fr => .ok ⟨some fr, none, none⟩
    | .error e => .error e

/-- Active kind of a reference, first set member in field order; agrees
with `lastSetKind` whenever at most one member is set. -/
def BinaryRef.kind (ref : BinaryRef) : RefType :=
  if ref.fr.isSome then .feed
  else if ref.mr.isSome then .message
  else if ref.cr.isSome then .content
  else .undefined

/-- The 32 payload bytes of the active member (empty when undefined). -/
def BinaryRef.payloadBytes (ref : BinaryRef) : List Nat :=
  match ref.fr with
  | some fr => fr.id.val
  | none =>
    match ref.mr with
    | some mr => mr.hash.val
    | none =>
      match ref.cr with
      | some cr => cr.hash.val
      | none => []

/-- A reference holding exactly one member, whose content reference (if
that is the member) uses the gabby content algorithm: the precondition of
the round-trip property. -/
def BinaryRef.marshalReady (ref : BinaryRef) : Bool :=
  (ref.refCount == 1) &&
    (match ref.cr with
     | some cr => cr.algo == RefAlgo.contentGabby
     | none => true)

/-- At most one of the three members is set. -/
def BinaryRef.atMostOneSet (ref : BinaryRef) : Bool :=
  ref.refCount ≤ 1

/-- The all-zero 32-byte string. -/
def zeros32 : List Nat :=
  List.replicate 32 0

/-- The all-zero 32-byte identifier as a `Bytes32`. -/
def z32 : Bytes32 :=
  ⟨zeros32, by simp [zeros32]⟩

/-- Marshalling a reference holding only a feed reference yields the 0x01
tag followed by the 32 key bytes. -/
lemma marshal_feed_eq (a : RefAlgo) (k : Bytes32) :
    (BinaryRef.mk (some ⟨a, k⟩) none none).marshalBinary = .ok (0x01 :: k.val) :=
  rfl

/-- Marshalling a reference holding only a message reference yields the
0x02 tag followed by the 32 hash bytes. -/
lemma marshal_message_eq (a : RefAlgo) (hs : Bytes32) :
    (BinaryRef.mk none (some ⟨a, hs⟩) none).marshalBinary = .ok (0x02 :: hs.val) := by
  simp [BinaryRef.marshalBinary, BinaryRef.valid, BinaryRef.refCount,
    BinaryRef.lastSetKind, MessageRef.copyHashTo32, hs.property]

/-- Marshalling a reference holding only a gabby content reference yields
the 0x03 tag followed by the 32 hash bytes. -/
lemma marshal_content_eq (hs : Bytes32) :
    (BinaryRef.mk none none (some ⟨RefAlgo.contentGabby, hs⟩)).marshalBinary =
      .ok (0x03 :: hs.val) :=
  rfl

/-- C9: marshalBinary on the fully-undefined BinaryRef (all three members
unset) returns no bytes and no error. -/
theorem c9_marshal_undefined :
    BinaryRef.zero.marshalBinary = .ok [] := by
  rfl

/-- C3: unmarshalBinary fails with InvalidLength on every input whose
length is not exactly 33, regardless of the bytes' contents. -/
theorem c3_invalid_length (ref : BinaryRef) (data : List Nat)
    (h : data.length ≠ binrefSize) :
    ref.unmarshalBinary data = (ref, some (.invalidLength data.length)) := by
  simp [BinaryRef.unmarshalBinary, h]

theorem c3_invalid_length_witness :
    (([0] : List Nat).length ≠ binrefSize) ∧
      BinaryRef.zero.unmarshalBinary [0] =
        (BinaryRef.zero, some (.invalidLength 1)) :=
  ⟨by decide, c3_invalid_length BinaryRef.zero [0] (by decide)⟩

/-- C4: unmarshalBinary on a 33-byte input whose first byte is none of
0x01, 0x02, 0x03 fails with UnknownDiscriminant, regardless of the
remaining 32 bytes. -/
theorem c4_unknown_discriminant (ref : BinaryRef) (d0 : Nat) (rest : List Nat)
    (hlen : rest.length = 32)
    (h1 : d0 ≠ 0x01) (h2 : d0 ≠ 0x02) (h3 : d0 ≠ 0x03) :
    ref.unmarshalBinary (d0 :: rest) = (ref, some (.unknownDiscriminant d0)) := by
  simp [BinaryRef.unmarshalBinary, binrefSize, hlen, h1, h2, h3]

theorem c4_unknown_discriminant_witness :
    (zeros32.length = 32 ∧ (0xFF:Nat) ≠ 0x01 ∧ (0xFF:Nat) ≠ 0x02 ∧ (0xFF:Nat) ≠ 0x03) ∧
      BinaryRef.zero.unmarshalBinary (0xFF :: zeros32) =
        (BinaryRef.zero, some (.unknownDiscriminant 0xFF)) :=
  ⟨by decide,
    c4_unknown_discriminant BinaryRef.zero 0xFF zeros32
      (by decide) (by decide) (by decide) (by decide)⟩

/-- C5: marshalBinary on a content reference whose algorithm is not the
gabby content algorithm fails with UnsupportedContentAlgorithm, and the
decode-side algorithm gate of unmarshalBinary rejects any decoded content
reference whose algorithm is not the gabby content algorithm with
InvalidContentAlgorithm. -/
theorem c5_content_algo_gate (cr : ContentRef)
    (h : cr.algo ≠ RefAlgo.contentGabby) :
    (BinaryRef.mk none none (some cr)).marshalBinary =
        .error .unsupportedContentAlgorithm ∧
      contentAlgoGate cr = some .invalidContentAlgorithm := by
  constructor
  · simp [BinaryRef.marshalBinary, BinaryRef.valid, BinaryRef.refCount,
      BinaryRef.lastSetKind, h]
  · simp [contentAlgoGate, ContentRef.algoOf, h]

theorem c5_content_algo_gate_witness :
    ((ContentRef.mk RefAlgo.contentSSB1 z32).algo ≠ RefAlgo.contentGabby) ∧
      (BinaryRef.mk none none (some (ContentRef.mk RefAlgo.contentSSB1 z32))).marshalBinary =
          .error .unsupportedContentAlgorithm ∧
        contentAlgoGate (ContentRef.mk RefAlgo.contentSSB1 z32) =
          some .invalidContentAlgorithm :=
  ⟨by decide, c5_content_algo_gate (ContentRef.mk RefAlgo.contentSSB1 z32) (by decide)⟩

/-- C6: whenever two or more of the three members are simultaneously set,
both valid and marshalBinary fail with MultipleReferencesSet. -/
theorem c6_multiple_refs (ref : BinaryRef) (h : 2 ≤ ref.refCount) :
    ref.valid = .error .multipleReferencesSet ∧
      ref.marshalBinary = .error .multipleReferencesSet := by
  have hv : ref.valid = .error .multipleReferencesSet := by
    rw [BinaryRef.valid, if_pos (by omega)]
  exact ⟨hv, by simp [BinaryRef.marshalBinary, hv]⟩

theorem c6_multiple_refs_witness :
    (2 ≤ (BinaryRef.mk (some ⟨RefAlgo.feedGabby, z32⟩)
        (some ⟨RefAlgo.messageGabby, z32⟩) none).refCount) ∧
      (BinaryRef.mk (some ⟨RefAlgo.feedGabby, z32⟩)
          (some ⟨RefAlgo.messageGabby, z32⟩) none).valid =
          .error .multipleReferencesSet ∧
        (BinaryRef.mk (some ⟨RefAlgo.feedGabby, z32⟩)
            (some ⟨RefAlgo.messageGabby, z32⟩) none).marshalBinary =
          .error .multipleReferencesSet :=
  ⟨by decide,
    c6_multiple_refs (BinaryRef.mk (some ⟨RefAlgo.feedGabby, z32⟩)
      (some ⟨RefAlgo.messageGabby, z32⟩) none) (by decide)⟩

/-- C8: refFromPubKey fails with InvalidPublicKeyLength on every input
whose length is not 32, and on the 32-byte all-zero key it succeeds with a
feed reference whose marshalBinary output is 0x01 followed by 32 zero
bytes. -/
theorem c8_from_pubkey :
    (∀ pk : List Nat, pk.length ≠ 32 →
        refFromPubKey pk = .error .invalidPublicKeyLength) ∧
      refFromPubKey zeros32 = .ok ⟨some ⟨RefAlgo.feedGabby, z32⟩, none, none⟩ ∧
        (BinaryRef.mk (some ⟨RefAlgo.feedGabby, z32⟩) none none).marshalBinary =
          .ok (0x01 :: zeros32) := by
  refine ⟨fun pk h => ?_, rfl, rfl⟩
  simp [refFromPubKey, ed25519PublicKeySize, h]

theorem c8_from_pubkey_witness :
    (([] : List Nat).length ≠ 32) ∧
      refFromPubKey [] = .error .invalidPublicKeyLength :=
  ⟨by decide, c8_from_pubkey.1 [] (by decide)⟩

/-- C2: every successful, non-empty marshalBinary output is exactly 33
bytes, a discriminant byte matching the active kind (0x01 feed, 0x02
message, 0x03 content) followed by 32 payload bytes; and size is the
constant 33 on every instance. -/
theorem c2_wire_form :
    (∀ (ref : BinaryRef) (bs : List Nat),
        ref.marshalBinary = .ok bs → bs ≠ [] →
        bs.length = 33 ∧
          ((ref.valid = .ok .feed ∧ bs.head? = some 0x01) ∨
           (ref.valid = .ok .message ∧ bs.head? = some 0x02) ∨
           (ref.valid = .ok .content ∧ bs.head? = some 0x03))) ∧
      ∀ ref : BinaryRef, ref.size = 33 := by
  refine ⟨?_, fun ref => rfl⟩
  rintro ⟨fr, mr, cr⟩ bs hok hne
  rcases fr with _ | ⟨fa, fk⟩ <;> rcases mr with _ | ⟨ma, mh⟩ <;>
    rcases cr with _ | ⟨ca, ch⟩
  · exact absurd (by simpa [BinaryRef.marshalBinary, BinaryRef.valid,
      BinaryRef.refCount, BinaryRef.lastSetKind] using hok.symm) hne
  · cases ca with
    | contentGabby =>
      rw [marshal_content_eq ch] at hok
      obtain rfl : (0x03 :: ch.val) = bs := by simpa using hok
      exact ⟨by simp [ch.property], Or.inr (Or.inr ⟨rfl, rfl⟩)⟩
    | feedGabby =>
      simp [BinaryRef.marshalBinary, BinaryRef.valid, BinaryRef.refCount,
        BinaryRef.lastSetKind] at hok
    | messageGabby =>
      simp [BinaryRef.marshalBinary, BinaryRef.valid, BinaryRef.refCount,
        BinaryRef.lastSetKind] at hok
    | contentSSB1 =>
      simp [BinaryRef.marshalBinary, BinaryRef.valid, BinaryRef.refCount,
        BinaryRef.lastSetKind] at hok
  · rw [marshal_message_eq ma mh] at hok
    obtain rfl : (0x02 :: mh.val) = bs := by simpa using hok
    exact ⟨by simp [mh.property], Or.inr (Or.inl ⟨rfl, rfl⟩)⟩
  · simp_all [BinaryRef.marshalBinary, BinaryRef.valid, BinaryRef.refCount,
      BinaryRef.lastSetKind]
  · rw [marshal_feed_eq fa fk] at hok
    obtain rfl : (0x01 :: fk.val) = bs := by simpa using hok
    exact ⟨by simp [fk.property], Or.inl ⟨rfl, rfl⟩⟩
  · simp_all [BinaryRef.marshalBinary, BinaryRef.valid, BinaryRef.refCount,
      BinaryRef.lastSetKind]
  · simp_all [BinaryRef.marshalBinary, BinaryRef.valid, BinaryRef.refCount,
      BinaryRef.lastSetKind]
  · simp_all [BinaryRef.marshalBinary, BinaryRef.valid, BinaryRef.refCount,
      BinaryRef.lastSetKind]

theorem c2_wire_form_witness :
    ((BinaryRef.mk (some ⟨RefAlgo.feedGabby, z32⟩) none none).marshalBinary =
        .ok (0x01 :: zeros32) ∧ (0x01 :: zeros32) ≠ []) ∧
      ((0x01 :: zeros32).length = 33 ∧
        (((BinaryRef.mk (some ⟨RefAlgo.feedGabby, z32⟩) none none).valid = .ok .feed ∧
            (0x01 :: zeros32).head? = some 0x01) ∨
         ((BinaryRef.mk (some ⟨RefAlgo.feedGabby, z32⟩) none none).valid = .ok .message ∧
            (0x01 :: zeros32).head? = some 0x02) ∨
         ((BinaryRef.mk (some ⟨RefAlgo.feedGabby, z32⟩) none none).valid = .ok .content ∧
            (0x01 :: zeros32).head? = some 0x03))) ∧
        (BinaryRef.zero.size = 33) :=
  ⟨⟨rfl, by decide⟩,
    c2_wire_form.1 (BinaryRef.mk (some ⟨RefAlgo.feedGabby, z32⟩) none none)
      (0x01 :: zeros32) rfl (by decide),
    c2_wire_form.2 BinaryRef.zero⟩

/-- Each unmarshalBinary call either leaves the receiver state unchanged
or reports no error. -/
lemma unmarshal_state_or_ok (ref : BinaryRef) (data : List Nat) :
    (ref.unmarshalBinary data).1 = ref ∨ (ref.unmarshalBinary data).2 = none := by
  unfold BinaryRef.unmarshalBinary
  repeat' (first | exact Or.inl rfl | exact Or.inr rfl | split)

/-- C10: whenever unmarshalBinary reports an error, the receiver's three
members are left exactly as they were before the call. -/
theorem c10_error_preserves_state (ref : BinaryRef) (data : List Nat) (e : Err)
    (h : (ref.unmarshalBinary data).2 = some e) :
    (ref.unmarshalBinary data).1 = ref := by
  rcases unmarshal_state_or_ok ref data with h1 | h1
  · exact h1
  · rw [h1] at h
    cases h

theorem c10_error_preserves_state_witness :
    ((BinaryRef.zero.unmarshalBinary []).2 = some (Err.invalidLength 0)) ∧
      (BinaryRef.zero.unmarshalBinary []).1 = BinaryRef.zero :=
  ⟨by decide,
    c10_error_preserves_state BinaryRef.zero [] (Err.invalidLength 0) (by decide)⟩

/-- C1: for every reference holding exactly one member (a content member
using the gabby algorithm), marshalBinary succeeds and decoding its output
into the zero value yields a reference of the same kind with the same 32
payload bytes. -/
theorem c1_roundtrip (ref : BinaryRef) (h : ref.marshalReady = true) :
    ∃ bs decoded,
      ref.marshalBinary = .ok bs ∧
        BinaryRef.zero.unmarshalBinary bs = (decoded, none) ∧
        decoded.kind = ref.kind ∧
        decoded.payloadBytes = ref.payloadBytes := by
  rcases ref with ⟨fr, mr, cr⟩
  rcases fr with _ | ⟨fa, fkv, hfk⟩ <;> rcases mr with _ | ⟨ma, mhv, hmh⟩ <;>
    rcases cr with _ | ⟨ca, chv, hch⟩ <;>
    simp [BinaryRef.marshalReady, BinaryRef.refCount] at h
  · subst h
    refine ⟨0x03 :: chv, ⟨none, none, some ⟨RefAlgo.contentGabby, ⟨chv, hch⟩⟩⟩,
      marshal_content_eq ⟨chv, hch⟩, ?_, rfl, rfl⟩
    simp [BinaryRef.unmarshalBinary, binrefSize, hch, BinaryRef.zero,
      ContentRef.unmarshalBinary, contentAlgoGate, ContentRef.algoOf]
  · refine ⟨0x02 :: mhv, ⟨none, some ⟨RefAlgo.messageGabby, ⟨mhv, hmh⟩⟩, none⟩,
      marshal_message_eq ma ⟨mhv, hmh⟩, ?_, rfl, rfl⟩
    simp [BinaryRef.unmarshalBinary, binrefSize, hmh, BinaryRef.zero,
      NewMessageRefFromBytes]
  · refine ⟨0x01 :: fkv, ⟨some ⟨RefAlgo.feedGabby, ⟨fkv, hfk⟩⟩, none, none⟩,
      marshal_feed_eq fa ⟨fkv, hfk⟩, ?_, rfl, rfl⟩
    simp [BinaryRef.unmarshalBinary, binrefSize, hfk, BinaryRef.zero,
      NewFeedRefFromBytes]

theorem c1_roundtrip_witness :
    ((BinaryRef.mk none (some ⟨RefAlgo.messageGabby, z32⟩) none).marshalReady = true) ∧
      ∃ bs decoded,
        (BinaryRef.mk none (some ⟨RefAlgo.messageGabby, z32⟩) none).marshalBinary =
            .ok bs ∧
          BinaryRef.zero.unmarshalBinary bs = (decoded, none) ∧
          decoded.kind = (BinaryRef.mk none (some ⟨RefAlgo.messageGabby, z32⟩) none).kind ∧
          decoded.payloadBytes =
            (BinaryRef.mk none (some ⟨RefAlgo.messageGabby, z32⟩) none).payloadBytes :=
  ⟨by decide, c1_roundtrip (BinaryRef.mk none (some ⟨RefAlgo.messageGabby, z32⟩) none)
    (by decide)⟩

/-- C7 fails as stated: two successive successful unmarshalBinary calls on
the same value, first with a 0x01-tagged input, then with a 0x02-tagged
input, leave both the feed and the message member set, so the resulting
state reachable through a sequence of unmarshalBinary calls from the zero
value has more than one member set. -/
theorem c7_counterexample :
    ((BinaryRef.zero.unmarshalBinary (0x01 :: zeros32)).2 = none ∧
        ((BinaryRef.zero.unmarshalBinary (0x01 :: zeros32)).1.unmarshalBinary
          (0x02 :: zeros32)).2 = none) ∧
      ((BinaryRef.zero.unmarshalBinary (0x01 :: zeros32)).1.unmarshalBinary
        (0x02 :: zeros32)).1.atMostOneSet = false := by
  decide

/-- C7 (amended): every state reachable through fromRef, refFromPubKey, or
a single unmarshalBinary call on the zero value has at most one of the
three members set. -/
theorem c7_amended_single_ops :
    (∀ r : Ref, (fromRef r).atMostOneSet = true) ∧
      (∀ (pk : List Nat) (br : BinaryRef), refFromPubKey pk = .ok br →
        br.atMostOneSet = true) ∧
      ∀ data : List Nat, (BinaryRef.zero.unmarshalBinary data).1.atMostOneSet = true := by
  refine ⟨fun r => ?_, fun pk br h => ?_, fun data => ?_⟩
  · cases r <;> rfl
  · unfold refFromPubKey at h
    split at h
    · cases h
    · unfold NewFeedRefFromBytes at h
      split at h
      · cases h
        rfl
      · cases h
  · unfold BinaryRef.unmarshalBinary
    repeat' (first | rfl | split)

theorem c7_amended_single_ops_witness :
    (refFromPubKey zeros32 = .ok ⟨some ⟨RefAlgo.feedGabby, z32⟩, none, none⟩) ∧
      (BinaryRef.mk (some ⟨RefAlgo.feedGabby, z32⟩) none none).atMostOneSet = true :=
  ⟨rfl,
    c7_amended_single_ops.2.1 zeros32
      (BinaryRef.mk (some ⟨RefAlgo.feedGabby, z32⟩) none none) rfl⟩
